import Mathlib

/-!
Verification development for the MSFS content-wrangler manifest core.

The development shallowly embeds the manifest synchronization and
classification engine of the repository:

* `src/categorizer.py` — pure name classification (`categorize`,
  `derive_source_and_sim`, `derive_vendor`) and the rule store
  (`save_rules`);
* `src/content_io.py`  — manifest parsing (`load_packages`) and the
  atomic status write-back (`save_packages`);
* `src/models.py`      — the row collection and its single-row status
  mutation (`PackageTableModel.setData`);
* `src/main.py`        — the bulk status mutation (`bulk_set`).

Python strings are embedded as Lean `String` (a wrapper around
`List Char`); the Python operations used by the code (`str.lower`,
`str.startswith`, `in`, `str.strip`, `str.split`) are modelled on the
underlying character lists.  File-system effects are modelled by
passing the relevant file contents in and out explicitly, and fallible
steps by `Except`.
-/

namespace ContentWrangler

/-! ## Python string primitives -/

/-- Python `str.lower()` restricted to ASCII case mapping (every string
occurring in the program is ASCII). -/
def pyLower (s : String) : String := ⟨s.data.map Char.toLower⟩

/-- Python `s.startswith(pre)`. -/
def pyStartswith (s pre : String) : Bool := pre.data.isPrefixOf s.data

/-- Python `pat in s`: substring containment. -/
def pyIn (pat s : String) : Bool := decide (pat.data <:+: s.data)

/-- Python whitespace characters stripped by `str.strip()` (ASCII). -/
def pySpace (c : Char) : Bool :=
  c == ' ' || c == '\t' || c == '\n' || c == '\r' || c == '\x0b' || c == '\x0c'

/-- Python `s.strip()`: remove leading and trailing whitespace. -/
def pyStrip (s : String) : String :=
  ⟨((s.data.dropWhile pySpace).reverse.dropWhile pySpace).reverse⟩

/-! ## Status constants (src/models.py, lines 8-10) -/

def STATUS_ACTIVATED : String := "Activated"

def STATUS_USERDISABLED : String := "UserDisabled"

def STATUS_SYSTEMDISABLED : String := "SystemDisabled"

/-! ## Ruleset data model (src/categorizer.py)

A ruleset is the JSON value `{"categories": [{"name": ..,
"patterns": [..]}, ..], "defaultCategory": ..}`.  The embedding gives
the fields directly (the `dict.get` defaults in the source only matter
for JSON documents missing those keys, which the structure type rules
out). -/

structure Category where
  name : String
  patterns : List String
deriving Repr, DecidableEq

structure Rules where
  categories : List Category
  defaultCategory : String
deriving Repr, DecidableEq

/-- DEFAULT_RULES of src/categorizer.py, lines 5-36. -/
def DEFAULT_RULES : Rules :=
  { categories :=
      [ { name := "Airport", patterns := ["-airport-", "airport-"] },
        { name := "Aircraft", patterns := ["-aircraft-"] },
        { name := "Livery", patterns := ["-livery-"] },
        { name := "Scenery", patterns := ["scenery", "cityscape", "landmarks"] },
        { name := "Library",
          patterns :=
            ["commonlibrary", "modellib", "material-lib", "-library-", "-lib", "lib-"] },
        { name := "Missions",
          patterns :=
            ["activities", "challenges", "mission", "training", "discovery", "travelbook"] },
        { name := "Utilities", patterns := ["jetways", "toolbar", "gsx", "flow"] } ],
    defaultCategory := "Other" }

/-- Inner loop of `categorize` (src/categorizer.py, lines 51-52): does
some pattern of `cat` occur in the (already lowercased) name `n`? -/
def catMatches (n : String) (cat : Category) : Bool :=
  cat.patterns.any (fun pat => pyIn pat n)

/-- Outer loop of `categorize` (src/categorizer.py, lines 50-53): the
name of the first category with a matching pattern, if any. -/
def firstMatchingCategory (n : String) : List Category → Option String
  | [] => none
  | cat :: rest =>
    if catMatches n cat then some cat.name else firstMatchingCategory n rest

/-- categorize of src/categorizer.py, lines 48-54. -/
def categorize (name : String) (rules : Rules) : String :=
  match firstMatchingCategory (pyLower name) rules.categories with
  | some c => c
  | none => rules.defaultCategory

/-- legacy2020_hints of src/categorizer.py, lines 80-87. -/
def legacy2020_hints : List String :=
  ["fs-base", "asobo-aircraft", "asobo-vcockpits", "microsoft-", "asobo-", "wombi"]

/-- derive_source_and_sim of src/categorizer.py, lines 57-91. -/
def derive_source_and_sim (name : String) : String × String :=
  let n := pyLower name
  if pyStartswith n "communityfs24-" then ("community", "fs24")
  else if pyStartswith n "communityfs20-" then ("community", "fs20")
  else if pyStartswith n "fs24-" then ("official", "fs24")
  else if pyStartswith n "fs20-" then ("official", "fs20")
  else if legacy2020_hints.any (fun h => pyIn h n) then ("official", "fs20")
  else ("official", "fs24")

/-- Loop of derive_vendor (src/categorizer.py, lines 96-100): strip the
first matching name marker, stopping at the first hit. -/
def stripVendorMarker (base : String) : List String → String
  | [] => base
  | p :: rest =>
    if pyStartswith base p then ⟨base.data.drop p.data.length⟩
    else stripVendorMarker base rest

/-- derive_vendor of src/categorizer.py, lines 94-103.
`base.split("-")[0]` is the longest dash-free leading chunk. -/
def derive_vendor (name : String) : String :=
  let base := stripVendorMarker name ["communityfs24-", "communityfs20-", "fs24-", "fs20-"]
  let vendor : String := ⟨base.data.takeWhile (fun c => c != '-')⟩
  pyLower vendor

/-! ## Rule store save (src/categorizer.py, lines 106-114)

`save_rules` runs two fallible file-system steps (create the parent
directory, write the serialized JSON) inside a `try` block whose
`except Exception: pass` handler swallows every failure.  The two
steps are modelled by their outcomes, passed as `Except` values. -/

/-- Body of the `try` block of save_rules: `path.parent.mkdir(...)`
followed by `path.write_text(...)`; an exception in either step aborts
the block. -/
def save_rules_attempt (mkdir_result write_result : Except String Unit) :
    Except String Unit :=
  match mkdir_result with
  | .error e => .error e
  | .ok _ => write_result

/-- save_rules of src/categorizer.py, lines 106-114: the `except
Exception: pass` handler turns every failure of the body into a normal
return. -/
def save_rules (mkdir_result write_result : Except String Unit) :
    Except String Unit :=
  match save_rules_attempt mkdir_result write_result with
  | .ok _ => .ok ()
  | .error _ => .ok ()

/-! ## Manifest data model (src/content_io.py)

A manifest document is the ordered list of its `<Package>` elements
(`root.findall("./Package")`).  Each element carries a `name`
attribute, an `active` attribute (either may be absent — `el.get`
then yields the default), and arbitrary further attributes that the
program never reads or writes (`others`). -/

structure Package where
  name : Option String
  active : Option String
  others : List (String × String)
deriving Repr, DecidableEq

/-- PackageRow of src/models.py, lines 13-27.  `thumbnail_path` is
filled in by a file-system search (`find_thumbnail`) outside the pure
core; the embedding leaves it at `none`, and nothing below reads it. -/
structure PackageRow where
  name : String
  status : String
  raw_index : Nat
  category : String := "Other"
  vendor : String := ""
  sim : String := "fs24"
  source : String := "official"
  original_status : Option String := none
  thumbnail_path : Option String := none
deriving Repr, DecidableEq

/-- Status derivation of load_packages (src/content_io.py, line 118):
`el.get("active", "").strip() or STATUS_ACTIVATED`.  The empty string
is falsy in Python, so a missing, empty or all-whitespace attribute
yields `STATUS_ACTIVATED`; any other attribute is kept verbatim after
stripping. -/
def loadStatusOfAttr (a : Option String) : String :=
  let s := pyStrip (a.getD "")
  if s = "" then STATUS_ACTIVATED else s

/-- Loop body of load_packages (src/content_io.py, lines 116-134)
for the element at document index `idx`. -/
def mkLoadedRow (rules : Rules) (idx : Nat) (el : Package) : PackageRow :=
  let name := pyStrip (el.name.getD "")
  let status := loadStatusOfAttr el.active
  let ss := derive_source_and_sim name
  { name := name
    status := status
    source := ss.1
    sim := ss.2
    category := categorize name rules
    vendor := derive_vendor name
    raw_index := idx }

/-- Loop of load_packages (`for idx, el in enumerate(...)`), carrying
the running index. -/
def loadRowsFrom (rules : Rules) : Nat → List Package → List PackageRow
  | _, [] => []
  | idx, el :: rest => mkLoadedRow rules idx el :: loadRowsFrom rules (idx + 1) rest

/-- load_packages of src/content_io.py, lines 111-135, applied to an
already-parsed document.  (`load_rules` and the XML parse are file
I/O; the parsed rules and document are passed in.) -/
def load_packages (rules : Rules) (doc : List Package) : List PackageRow :=
  loadRowsFrom rules 0 doc

/-! ## Manifest save (src/content_io.py, lines 145-179) -/

/-- Prune test of save_packages (src/content_io.py, line 157):
`el.get("name", "").startswith("communityfs20-")` (note: no strip,
no lowercasing). -/
def isLegacyFs20 (el : Package) : Bool :=
  pyStartswith (el.name.getD "") "communityfs20-"

/-- First pass of save_packages (src/content_io.py, lines 154-162):
collect every element whose name starts with `communityfs20-`, remove
each from the root, and count them. -/
def pruneLegacy (doc : List Package) : List Package × Nat :=
  let packages_to_remove := doc.filter isLegacyFs20
  (doc.filter (fun el => !isLegacyFs20 el), packages_to_remove.length)

/-- Lookup in `status_map = {r.name: r.status for r in all_rows}`
(src/content_io.py, line 165): the dict comprehension lets the last
row with a given name win, so the lookup finds the last match. -/
def statusMap (all_rows : List PackageRow) (n : String) : Option String :=
  (all_rows.reverse.find? (fun r => r.name == n)).map (fun r => r.status)

/-- Second pass of save_packages (src/content_io.py, lines 164-169):
for every remaining element whose stripped name is in the status map,
overwrite the `active` attribute with the mapped status; all other
elements and attributes are untouched. -/
def applyStatuses (all_rows : List PackageRow) (doc : List Package) : List Package :=
  doc.map (fun el =>
    let name := pyStrip (el.name.getD "")
    match statusMap all_rows name with
    | some st => { el with active := some st }
    | none => el)

/-- save_packages of src/content_io.py, lines 145-179, over an
explicit file-system state.  `target` is the current content of
`xml_path` (re-parsed fresh at save time, line 149); the result pairs
the call's outcome with the content of `xml_path` afterwards.
`tmp_write_ok` is the outcome of `tree.write(tmp_path, ...)`
(line 176): when it raises, the exception propagates before
`os.replace` (line 178) runs, so the target file keeps its previous
content. -/
def save_packages (target : List Package) (all_rows : List PackageRow)
    (clean_legacy_fs20 : Bool) (tmp_write_ok : Bool) :
    Except String Nat × List Package :=
  let pruned := if clean_legacy_fs20 then pruneLegacy target else (target, 0)
  let removed_count := pruned.2
  let newDoc := applyStatuses all_rows pruned.1
  if tmp_write_ok then (.ok removed_count, newDoc)
  else (.error "tree.write raised before os.replace", target)

/-! ## Row mutation (src/models.py and src/main.py) -/

/-- Qt check-state values passed to `setData`. -/
inductive CheckState where
  | Checked
  | PartiallyChecked
  | Unchecked
deriving Repr, DecidableEq

/-- Qt item roles distinguished by `setData`. -/
inductive ItemRole where
  | DisplayRole
  | EditRole
  | CheckStateRole
deriving Repr, DecidableEq

/-- STATUS_COL of src/main.py, line 92. -/
def STATUS_COL : Nat := 2

/-- PackageTableModel.setData of src/models.py, lines 192-209, acting
on the row list `_rows`.  An index outside the row list is invalid
(`index.isValid()` false), returning `False` untouched.  Only a
`CheckStateRole` edit of column 2 does anything, and a SystemDisabled
row rejects it; otherwise the row's status becomes Activated for
`Qt.Checked` and UserDisabled for any other value, written only when
it differs. -/
def setData (rows : List PackageRow) (r c : Nat) (value : CheckState)
    (role : ItemRole) : List PackageRow × Bool :=
  if h : r < rows.length then
    let row := rows[r]
    if c = STATUS_COL ∧ role = ItemRole.CheckStateRole then
      if row.status = STATUS_SYSTEMDISABLED then (rows, false)
      else
        let new_status :=
          if value = CheckState.Checked then STATUS_ACTIVATED else STATUS_USERDISABLED
        if new_status ≠ row.status then
          (rows.set r { row with status := new_status }, true)
        else (rows, true)
    else (rows, false)
  else (rows, false)

/-- Loop body of bulk_set (src/main.py, lines 783-800) for one
selected source row index.  A SystemDisabled row is skipped without
counting; any other row gets a `setData` check-state edit (Checked
for a target of Activated, Unchecked otherwise) and is counted
whether or not the status actually changed.  Selection indices come
from the table's selection model and are always in range; an
out-of-range index is modelled as a no-op. -/
def bulkStep (status_value : String) (st : List PackageRow × Nat)
    (idx : Nat) : List PackageRow × Nat :=
  let rows := st.1
  if h : idx < rows.length then
    let row := rows[idx]
    if row.status = STATUS_SYSTEMDISABLED then st
    else
      let value :=
        if status_value = STATUS_ACTIVATED then CheckState.Checked
        else CheckState.Unchecked
      ((setData rows idx STATUS_COL value ItemRole.CheckStateRole).1, st.2 + 1)
  else st

/-- bulk_set of src/main.py, lines 775-803: fold the per-row update
over the selected source row indices, starting from a zero count.
The returned count is what the status bar reports as
`updated {changed} entrie(s)`. -/
def bulk_set (rows : List PackageRow) (sel : List Nat)
    (status_value : String) : List PackageRow × Nat :=
  sel.foldl (bulkStep status_value) (rows, 0)

/-- Does position `i` of `rows` hold a row that `bulk_set` would not
skip, i.e. an in-range row whose status is not SystemDisabled? -/
def notSysDisabledAt (rows : List PackageRow) (i : Nat) : Bool :=
  ((rows[i]?).map (fun r => !(r.status == STATUS_SYSTEMDISABLED))).getD false

/-! ## Helper lemmas -/

theorem map_eq_self_of {α : Type} {f : α → α} :
    ∀ {l : List α}, (∀ x ∈ l, f x = x) → l.map f = l
  | [], _ => rfl
  | a :: t, h => by
    simp only [List.map_cons]
    rw [h a (List.mem_cons_self a t),
      map_eq_self_of (fun x hx => h x (List.mem_cons_of_mem a hx))]

theorem all_of_dropWhile_all {p : α → Bool} {l : List α}
    (h : ∀ x ∈ l.dropWhile p, p x = true) : ∀ x ∈ l, p x = true := by
  intro x hx
  rw [← List.takeWhile_append_dropWhile p l] at hx
  rcases List.mem_append.mp hx with h1 | h2
  · exact List.mem_takeWhile_imp h1
  · exact h x h2

theorem pyStrip_eq_empty_iff (s : String) :
    pyStrip s = "" ↔ s.data.all pySpace = true := by
  have hdata : ∀ t u : String, t = u ↔ t.data = u.data := by
    intro t u
    constructor
    · intro h; rw [h]
    · intro h; cases t; cases u; exact congrArg String.mk h
  rw [hdata]
  show (((s.data.dropWhile pySpace).reverse.dropWhile pySpace).reverse = ([] : List Char))
    ↔ s.data.all pySpace = true
  rw [List.reverse_eq_nil_iff, List.dropWhile_eq_nil_iff, List.all_eq_true]
  constructor
  · intro h
    refine all_of_dropWhile_all (fun x hx => ?_)
    exact h x (List.mem_reverse.mpr hx)
  · intro h x hx
    exact h x ((List.dropWhile_sublist pySpace).subset (List.mem_reverse.mp hx))

theorem pyStartswith_iff {s p : String} :
    pyStartswith s p = true ↔ p.data <+: s.data := by
  unfold pyStartswith
  exact List.isPrefixOf_iff_prefix

theorem startswith_pair {s p q : String} (hp : pyStartswith s p = true)
    (hq : pyStartswith s q = true) (hle : p.data.length ≤ q.data.length) :
    p.data <+: q.data :=
  List.prefix_of_prefix_length_le (pyStartswith_iff.mp hp) (pyStartswith_iff.mp hq) hle

theorem find?_map_eq_of_unique {α : Type} {β : Type} (p : α → Bool) (f : α → β)
    {l : List α} {x : α} (hx : x ∈ l) (hpx : p x = true)
    (huniq : ∀ y ∈ l, p y = true → f y = f x) :
    (l.find? p).map f = some (f x) := by
  cases h : l.find? p with
  | none => exact absurd hpx (List.find?_eq_none.mp h x hx)
  | some a =>
    simp [huniq a (List.mem_of_find?_eq_some h) (List.find?_some h)]

theorem loadRowsFrom_getElem? (rules : Rules) :
    ∀ (doc : List Package) (k i : Nat),
      (loadRowsFrom rules k doc)[i]? =
        (doc[i]?).map (fun el => mkLoadedRow rules (k + i) el)
  | [], _, _ => by simp [loadRowsFrom]
  | _ :: _, _, 0 => by simp [loadRowsFrom]
  | _ :: rest, k, i + 1 => by
    simp only [loadRowsFrom, List.getElem?_cons_succ]
    rw [loadRowsFrom_getElem? rules rest (k + 1) i]
    have : k + 1 + i = k + (i + 1) := by omega
    rw [this]

theorem loadRowsFrom_map_name (rules : Rules) :
    ∀ (doc : List Package) (k : Nat),
      (loadRowsFrom rules k doc).map (fun r => r.name) =
        doc.map (fun el => pyStrip (el.name.getD ""))
  | [], _ => rfl
  | el :: rest, k => by
    simp only [loadRowsFrom, List.map_cons, mkLoadedRow]
    rw [loadRowsFrom_map_name rules rest (k + 1)]

theorem mem_loadRowsFrom (rules : Rules) :
    ∀ {doc : List Package} {el : Package}, el ∈ doc → ∀ (k : Nat),
      ∃ r ∈ loadRowsFrom rules k doc,
        r.name = pyStrip (el.name.getD "") ∧ r.status = loadStatusOfAttr el.active := by
  intro doc
  induction doc with
  | nil => intro el h; cases h
  | cons hd tl ih =>
    intro el h k
    rcases List.mem_cons.mp h with h1 | h2
    · subst h1
      exact ⟨mkLoadedRow rules k el, List.mem_cons_self _ _, rfl, rfl⟩
    · obtain ⟨r, hr, hrn, hrs⟩ := ih h2 (k + 1)
      exact ⟨r, List.mem_cons_of_mem _ hr, hrn, hrs⟩

theorem statusMap_loaded (rules : Rules) (doc : List Package)
    (hnodup : (doc.map (fun el => pyStrip (el.name.getD ""))).Nodup)
    {el : Package} (hel : el ∈ doc) :
    statusMap (load_packages rules doc) (pyStrip (el.name.getD "")) =
      some (loadStatusOfAttr el.active) := by
  obtain ⟨r, hr_mem, hr_name, hr_status⟩ := mem_loadRowsFrom rules hel 0
  unfold statusMap
  rw [← hr_status]
  apply find?_map_eq_of_unique
  · exact List.mem_reverse.mpr hr_mem
  · simp [hr_name]
  · intro y hy hpy
    have hy' : y ∈ load_packages rules doc := List.mem_reverse.mp hy
    have hyname : y.name = pyStrip (el.name.getD "") := by
      simpa using hpy
    have hrows_nodup : ((load_packages rules doc).map (fun r => r.name)).Nodup := by
      rw [load_packages, loadRowsFrom_map_name]
      exact hnodup
    have heq : y = r :=
      List.inj_on_of_nodup_map hrows_nodup hy' hr_mem (by rw [hyname, hr_name])
    rw [heq]

theorem notSD_bool {s : String} (h : s ≠ STATUS_SYSTEMDISABLED) :
    (!(s == STATUS_SYSTEMDISABLED)) = true := by
  simp [h]

theorem setData_preserves_SD {rows : List PackageRow} {i : Nat} {row : PackageRow}
    (hi : rows[i]? = some row) (hSD : row.status = STATUS_SYSTEMDISABLED)
    (r c : Nat) (value : CheckState) (role : ItemRole) :
    ((setData rows r c value role).1)[i]? = some row := by
  simp only [setData]
  by_cases hlt : r < rows.length
  · rw [dif_pos hlt]
    by_cases hcr : c = STATUS_COL ∧ role = ItemRole.CheckStateRole
    · rw [if_pos hcr]
      by_cases hsd : rows[r].status = STATUS_SYSTEMDISABLED
      · rw [if_pos hsd]
        exact hi
      · rw [if_neg hsd]
        by_cases hne :
            (if value = CheckState.Checked then STATUS_ACTIVATED
             else STATUS_USERDISABLED) ≠ rows[r].status
        · rw [if_pos hne]
          by_cases hri : r = i
          · subst hri
            rw [List.getElem?_eq_getElem hlt] at hi
            have hrr : rows[r] = row := Option.some_inj.mp hi
            rw [hrr] at hsd
            exact absurd hSD hsd
          · rw [List.getElem?_set_ne hri]
            exact hi
        · rw [if_neg hne]
          exact hi
    · rw [if_neg hcr]
      exact hi
  · rw [dif_neg hlt]
    exact hi

theorem setData_notSysDisabledAt (rows : List PackageRow)
    (r c : Nat) (value : CheckState) (role : ItemRole) (i : Nat) :
    notSysDisabledAt ((setData rows r c value role).1) i = notSysDisabledAt rows i := by
  simp only [setData]
  by_cases hlt : r < rows.length
  · rw [dif_pos hlt]
    by_cases hcr : c = STATUS_COL ∧ role = ItemRole.CheckStateRole
    · rw [if_pos hcr]
      by_cases hsd : rows[r].status = STATUS_SYSTEMDISABLED
      · rw [if_pos hsd]
      · rw [if_neg hsd]
        by_cases hne :
            (if value = CheckState.Checked then STATUS_ACTIVATED
             else STATUS_USERDISABLED) ≠ rows[r].status
        · rw [if_pos hne]
          unfold notSysDisabledAt
          by_cases hri : r = i
          · subst hri
            rw [List.getElem?_set_self hlt, List.getElem?_eq_getElem hlt]
            have hnew :
                (if value = CheckState.Checked then STATUS_ACTIVATED
                 else STATUS_USERDISABLED) ≠ STATUS_SYSTEMDISABLED := by
              split <;> decide
            simp [notSD_bool hnew, notSD_bool hsd]
          · rw [List.getElem?_set_ne hri]
        · rw [if_neg hne]
    · rw [if_neg hcr]
  · rw [dif_neg hlt]

theorem bulkStep_preserves_SD {st : List PackageRow × Nat} {i : Nat}
    {row : PackageRow} (hi : st.1[i]? = some row)
    (hSD : row.status = STATUS_SYSTEMDISABLED) (sv : String) (idx : Nat) :
    ((bulkStep sv st idx).1)[i]? = some row := by
  simp only [bulkStep]
  by_cases hlt : idx < st.1.length
  · rw [dif_pos hlt]
    by_cases hsd : st.1[idx].status = STATUS_SYSTEMDISABLED
    · rw [if_pos hsd]
      exact hi
    · rw [if_neg hsd]
      exact setData_preserves_SD hi hSD idx STATUS_COL _ ItemRole.CheckStateRole
  · rw [dif_neg hlt]
    exact hi

theorem bulkStep_notSysDisabledAt (sv : String) (st : List PackageRow × Nat)
    (idx i : Nat) :
    notSysDisabledAt ((bulkStep sv st idx).1) i = notSysDisabledAt st.1 i := by
  simp only [bulkStep]
  by_cases hlt : idx < st.1.length
  · rw [dif_pos hlt]
    by_cases hsd : st.1[idx].status = STATUS_SYSTEMDISABLED
    · rw [if_pos hsd]
    · rw [if_neg hsd]
      exact setData_notSysDisabledAt st.1 idx STATUS_COL _ ItemRole.CheckStateRole i
  · rw [dif_neg hlt]

theorem bulkStep_count (sv : String) (st : List PackageRow × Nat) (idx : Nat) :
    (bulkStep sv st idx).2 = st.2 + (if notSysDisabledAt st.1 idx then 1 else 0) := by
  simp only [bulkStep, notSysDisabledAt]
  by_cases hlt : idx < st.1.length
  · rw [dif_pos hlt]
    simp only [List.getElem?_eq_getElem hlt]
    by_cases hsd : st.1[idx].status = STATUS_SYSTEMDISABLED
    · rw [if_pos hsd]
      simp [hsd]
    · rw [if_neg hsd]
      simp [hsd]
  · rw [dif_neg hlt]
    simp only [List.getElem?_eq_none (by omega : st.1.length ≤ idx)]
    simp

theorem foldl_bulkStep_preserves_SD {i : Nat} {row : PackageRow} (sv : String) :
    ∀ (sel : List Nat) (st : List PackageRow × Nat),
      st.1[i]? = some row → row.status = STATUS_SYSTEMDISABLED →
      ((sel.foldl (bulkStep sv) st).1)[i]? = some row
  | [], _, hi, _ => hi
  | a :: t, st, hi, hSD => by
    rw [List.foldl_cons]
    exact foldl_bulkStep_preserves_SD sv t (bulkStep sv st a)
      (bulkStep_preserves_SD hi hSD sv a) hSD

theorem foldl_bulkStep_count (sv : String) (rows₀ : List PackageRow) :
    ∀ (sel : List Nat) (st : List PackageRow × Nat),
      (∀ j, notSysDisabledAt st.1 j = notSysDisabledAt rows₀ j) →
      (sel.foldl (bulkStep sv) st).2 =
        st.2 + sel.countP (notSysDisabledAt rows₀)
  | [], _, _ => by simp
  | a :: t, st, hinv => by
    rw [List.foldl_cons,
      foldl_bulkStep_count sv rows₀ t (bulkStep sv st a)
        (fun j => by rw [bulkStep_notSysDisabledAt]; exact hinv j),
      bulkStep_count, hinv a, List.countP_cons]
    omega

theorem firstMatchingCategory_some (n : String) :
    ∀ (cats : List Category) (i : Nat) (cat : Category),
      cats[i]? = some cat →
      (∀ j cj, j < i → cats[j]? = some cj → catMatches n cj = false) →
      catMatches n cat = true →
      firstMatchingCategory n cats = some cat.name
  | [], i, cat, h, _, _ => by simp at h
  | c :: t, 0, cat, h, _, hm => by
    simp only [List.getElem?_cons_zero, Option.some_inj] at h
    subst h
    simp [firstMatchingCategory, hm]
  | c :: t, i + 1, cat, h, hprev, hm => by
    have hc : catMatches n c = false :=
      hprev 0 c (Nat.succ_pos i) (by simp)
    simp only [firstMatchingCategory, hc, Bool.false_eq_true, if_false]
    exact firstMatchingCategory_some n t i cat (by simpa using h)
      (fun j cj hj hcj => hprev (j + 1) cj (by omega) (by simpa using hcj)) hm

theorem firstMatchingCategory_none (n : String) :
    ∀ (cats : List Category), (∀ cat ∈ cats, catMatches n cat = false) →
      firstMatchingCategory n cats = none
  | [], _ => rfl
  | c :: t, h => by
    have hc : catMatches n c = false := h c (List.mem_cons_self c t)
    simp only [firstMatchingCategory, hc, Bool.false_eq_true, if_false]
    exact firstMatchingCategory_none n t (fun cat hcat => h cat (List.mem_cons_of_mem c hcat))

/-! ## Claims -/

/-- C1: for every manifest document and row collection, if the step
that writes the new document to the temporary file fails (raises),
Save performs no replace and the original manifest file content is
unchanged after the failed `save_packages` call. -/
theorem c1_atomic_save_write_failure (target : List Package)
    (all_rows : List PackageRow) (clean_legacy_fs20 : Bool) :
    save_packages target all_rows clean_legacy_fs20 false =
      (.error "tree.write raised before os.replace", target) := by
  unfold save_packages
  simp

/-- C3: with prune enabled, `save_packages` removes exactly the K
elements whose (raw) name starts with `communityfs20-` — the file
afterwards is the status-patched list of exactly the non-matching
elements, whose length is the original length minus K — and returns
K; with prune disabled it removes nothing (the file afterwards is
the status-patched original list, same length) and returns 0,
whatever matching names are present. -/
theorem c3_prune_count (doc : List Package) (all_rows : List PackageRow) :
    ((save_packages doc all_rows true true).1 = .ok (doc.countP isLegacyFs20)
  ∧ (save_packages doc all_rows true true).2 =
      applyStatuses all_rows (doc.filter (fun el => !isLegacyFs20 el))
  ∧ ((save_packages doc all_rows true true).2).length =
      doc.length - doc.countP isLegacyFs20)
  ∧ ((save_packages doc all_rows false true).1 = .ok 0
  ∧ (save_packages doc all_rows false true).2 = applyStatuses all_rows doc
  ∧ ((save_packages doc all_rows false true).2).length = doc.length) := by
  have hcount : (doc.filter isLegacyFs20).length = doc.countP isLegacyFs20 :=
    (List.countP_eq_length_filter isLegacyFs20 doc).symm
  have hsplit := List.length_eq_countP_add_countP isLegacyFs20 doc
  simp only [decide_not, Bool.decide_eq_true] at hsplit
  have h2t : (save_packages doc all_rows true true).2 =
      applyStatuses all_rows (doc.filter (fun el => !isLegacyFs20 el)) := by
    simp [save_packages, pruneLegacy]
  have h2f : (save_packages doc all_rows false true).2 = applyStatuses all_rows doc := by
    simp [save_packages]
  refine ⟨⟨?_, h2t, ?_⟩, ?_, h2f, ?_⟩
  · simp [save_packages, pruneLegacy, hcount]
  · rw [h2t]
    unfold applyStatuses
    rw [List.length_map, ← List.countP_eq_length_filter]
    omega
  · simp [save_packages]
  · rw [h2f]
    unfold applyStatuses
    rw [List.length_map]

/-- C9, counterexample: the claim says a failed write is surfaced as
an error and `save_rules` does not return normally on a failed write;
but with a succeeding mkdir step and a write step that raises
("disk full"), `save_rules` returns normally. -/
theorem c9_counterexample :
    save_rules (.ok ()) (.error "disk full") = .ok () := rfl

/-- C9, amended: `save_rules` never surfaces a failure — whatever the
outcomes of the mkdir and write steps, the `except Exception: pass`
handler swallows them and `save_rules` returns normally. -/
theorem c9_amended_save_rules_swallows (mkdir_result write_result : Except String Unit) :
    save_rules mkdir_result write_result = .ok () := by
  unfold save_rules save_rules_attempt
  cases mkdir_result <;> cases write_result <;> rfl

/-- C5: `derive_source_and_sim` dispatches on the four name markers
`communityfs24-`, `communityfs20-`, `fs24-`, `fs20-` before any
legacy-hint scan — a name carrying a recognized marker never falls
through to the hints, whatever hint tokens it contains — and the
three example evaluations of the spec hold; a name with no recognized
marker and no legacy hint token yields `("official", "fs24")`. -/
theorem c5_source_sim_priority (name : String) :
    ((pyStartswith (pyLower name) "communityfs24-" = true →
        derive_source_and_sim name = ("community", "fs24"))
  ∧ (pyStartswith (pyLower name) "communityfs20-" = true →
        derive_source_and_sim name = ("community", "fs20"))
  ∧ (pyStartswith (pyLower name) "fs24-" = true →
        derive_source_and_sim name = ("official", "fs24"))
  ∧ (pyStartswith (pyLower name) "fs20-" = true →
        derive_source_and_sim name = ("official", "fs20")))
  ∧ (derive_source_and_sim "communityfs24-acme-airport-egll-x" = ("community", "fs24")
  ∧ derive_source_and_sim "fs20-acme-aircraft-x" = ("official", "fs20"))
  ∧ (pyStartswith (pyLower name) "communityfs24-" = false →
     pyStartswith (pyLower name) "communityfs20-" = false →
     pyStartswith (pyLower name) "fs24-" = false →
     pyStartswith (pyLower name) "fs20-" = false →
     legacy2020_hints.all (fun h => !pyIn h (pyLower name)) = true →
        derive_source_and_sim name = ("official", "fs24")) := by
  refine ⟨⟨?_, ?_, ?_, ?_⟩, ⟨by decide, by decide⟩, ?_⟩
  · intro h1
    simp [derive_source_and_sim, h1]
  · intro h2
    have h1 : ¬pyStartswith (pyLower name) "communityfs24-" = true := by
      intro h1
      exact absurd (startswith_pair h1 h2 (by decide)) (by decide)
    simp [derive_source_and_sim, h2, h1]
  · intro h3
    have h1 : ¬pyStartswith (pyLower name) "communityfs24-" = true := by
      intro h1
      exact absurd (startswith_pair h3 h1 (by decide)) (by decide)
    have h2 : ¬pyStartswith (pyLower name) "communityfs20-" = true := by
      intro h2
      exact absurd (startswith_pair h3 h2 (by decide)) (by decide)
    simp [derive_source_and_sim, h3, h1, h2]
  · intro h4
    have h1 : ¬pyStartswith (pyLower name) "communityfs24-" = true := by
      intro h1
      exact absurd (startswith_pair h4 h1 (by decide)) (by decide)
    have h2 : ¬pyStartswith (pyLower name) "communityfs20-" = true := by
      intro h2
      exact absurd (startswith_pair h4 h2 (by decide)) (by decide)
    have h3 : ¬pyStartswith (pyLower name) "fs24-" = true := by
      intro h3
      exact absurd (startswith_pair h4 h3 (by decide)) (by decide)
    simp [derive_source_and_sim, h4, h1, h2, h3]
  · intro h1 h2 h3 h4 hh
    have hh' : ¬legacy2020_hints.any (fun h => pyIn h (pyLower name)) = true := by
      rw [List.all_eq_true] at hh
      rw [List.any_eq_true]
      rintro ⟨x, hx, hpx⟩
      have := hh x hx
      rw [hpx] at this
      exact absurd this (by decide)
    simp [derive_source_and_sim, h1, h2, h3, h4, hh']

/-- C5 witness: the marker clause applied to a concrete prefixed name
and the default clause applied to a concrete unprefixed, hint-free
name. -/
theorem c5_witness :
    derive_source_and_sim "CommunityFS24-Vendor-Airport" = ("community", "fs24")
  ∧ derive_source_and_sim "plain-addon" = ("official", "fs24") :=
  ⟨(c5_source_sim_priority "CommunityFS24-Vendor-Airport").1.1 (by decide),
   (c5_source_sim_priority "plain-addon").2.2 (by decide) (by decide) (by decide)
     (by decide) (by decide)⟩

/-- C6: `categorize` returns the name of the first category, in
declaration order, one of whose patterns occurs in the lowercased
name (the order of patterns inside one category cannot affect which
category name is returned, so first-match-wins across both levels
reduces to first matching category), and the ruleset's default
category when no pattern of any category matches. -/
theorem c6_first_match_wins (name : String) (rules : Rules) :
    (∀ (i : Nat) (cat : Category),
        rules.categories[i]? = some cat →
        (∀ j cj, j < i → rules.categories[j]? = some cj →
          catMatches (pyLower name) cj = false) →
        catMatches (pyLower name) cat = true →
        categorize name rules = cat.name)
  ∧ ((∀ cat ∈ rules.categories, catMatches (pyLower name) cat = false) →
        categorize name rules = rules.defaultCategory) := by
  constructor
  · intro i cat hi hprev hm
    unfold categorize
    rw [firstMatchingCategory_some (pyLower name) rules.categories i cat hi hprev hm]
  · intro hall
    unfold categorize
    rw [firstMatchingCategory_none (pyLower name) rules.categories hall]

/-- C6 witness: with categories `Airport` (pattern `-airport-`) then
`Scenery` (pattern `scenery`), the name
`fs24-acme-airport-scenery-x` matches both but gets `Airport`
(declaration order wins); a name matching nothing gets the default. -/
theorem c6_witness :
    categorize "fs24-acme-airport-scenery-x"
      { categories :=
          [ { name := "Airport", patterns := ["-airport-"] },
            { name := "Scenery", patterns := ["scenery"] } ],
        defaultCategory := "Other" } = "Airport"
  ∧ categorize "fs24-acme-thing"
      { categories :=
          [ { name := "Airport", patterns := ["-airport-"] },
            { name := "Scenery", patterns := ["scenery"] } ],
        defaultCategory := "Other" } = "Other" := by
  constructor
  · exact (c6_first_match_wins "fs24-acme-airport-scenery-x"
      { categories :=
          [ { name := "Airport", patterns := ["-airport-"] },
            { name := "Scenery", patterns := ["scenery"] } ],
        defaultCategory := "Other" }).1 0
      { name := "Airport", patterns := ["-airport-"] } (by decide)
      (fun j cj hj _ => absurd hj (by omega)) (by decide)
  · exact (c6_first_match_wins "fs24-acme-thing"
      { categories :=
          [ { name := "Airport", patterns := ["-airport-"] },
            { name := "Scenery", patterns := ["scenery"] } ],
        defaultCategory := "Other" }).2 (by decide)

/-- C7, counterexample: the claim says changing the letter case of
any pattern in the ruleset never changes the returned category; but
`categorize` lowercases only the name, not the patterns, so replacing
the pattern `"a"` by its upper-case variant `"A"` (same letters up to
case, first conjunct) flips the result from the matching category to
the default. -/
theorem c7_counterexample :
    pyLower "A" = pyLower "a"
  ∧ categorize "x-a-y"
      { categories := [{ name := "X", patterns := ["a"] }],
        defaultCategory := "D" } = "X"
  ∧ categorize "x-a-y"
      { categories := [{ name := "X", patterns := ["A"] }],
        defaultCategory := "D" } = "D" := by
  refine ⟨by decide, by decide, by decide⟩

/-- C7, amended: pattern matching is case-insensitive in the name
only — `categorize` compares patterns verbatim against the lowercased
name, so changing the letter case of the name never changes the
returned category, while changing a pattern's case can. -/
theorem c7_amended_name_case_insensitive (name1 name2 : String) (rules : Rules)
    (h : pyLower name1 = pyLower name2) :
    categorize name1 rules = categorize name2 rules := by
  unfold categorize
  rw [h]

/-- C7 witness: the amended theorem applied to the same name in two
letter cases, under the default ruleset. -/
theorem c7_witness :
    categorize "FS24-Acme-AIRPORT-egll-x" DEFAULT_RULES =
      categorize "fs24-acme-airport-egll-x" DEFAULT_RULES :=
  c7_amended_name_case_insensitive "FS24-Acme-AIRPORT-egll-x"
    "fs24-acme-airport-egll-x" DEFAULT_RULES (by decide)

/-- C10: `load_packages` gives a row whose status is `Activated`
whenever the element's `active` attribute is missing, empty, or all
whitespace (the empty string is covered by the all-whitespace case),
and stores any other attribute value verbatim after stripping
surrounding whitespace, even when it is none of the three defined
status strings. -/
theorem c10_load_status_default (rules : Rules) (doc : List Package)
    (i : Nat) (el : Package) (hi : doc[i]? = some el) :
    ((el.active = none →
        ((load_packages rules doc)[i]?).map (fun r => r.status) =
          some STATUS_ACTIVATED)
  ∧ (∀ s, el.active = some s → s.data.all pySpace = true →
        ((load_packages rules doc)[i]?).map (fun r => r.status) =
          some STATUS_ACTIVATED)
  ∧ (∀ s, el.active = some s → s.data.all pySpace = false →
        ((load_packages rules doc)[i]?).map (fun r => r.status) =
          some (pyStrip s))) := by
  have hrow : (load_packages rules doc)[i]? =
      (doc[i]?).map (fun e => mkLoadedRow rules i e) := by
    have h := loadRowsFrom_getElem? rules doc 0 i
    simpa [load_packages] using h
  have hst : ((load_packages rules doc)[i]?).map (fun r => r.status) =
      some (loadStatusOfAttr el.active) := by
    rw [hrow, hi]
    rfl
  refine ⟨?_, ?_, ?_⟩
  · intro hnone
    exact hst.trans (by rw [hnone]; decide)
  · intro s hs hall
    have hempty : pyStrip s = "" := (pyStrip_eq_empty_iff s).mpr hall
    refine hst.trans ?_
    rw [hs]
    unfold loadStatusOfAttr
    simp [hempty]
  · intro s hs hnall
    have hne : pyStrip s ≠ "" := by
      intro he
      rw [(pyStrip_eq_empty_iff s).mp he] at hnall
      cases hnall
    refine hst.trans ?_
    rw [hs]
    unfold loadStatusOfAttr
    simp [hne]

/-- C10 witness: an element with `active = "  UserDisabled  "` loads
with the stripped verbatim status `UserDisabled`, and one with a
whitespace-only `active` loads as `Activated`. -/
theorem c10_witness :
    ((load_packages { categories := [], defaultCategory := "Other" }
        [{ name := some "pkg", active := some "  UserDisabled  ", others := [] }])[0]?).map
      (fun r => r.status) = some "UserDisabled"
  ∧ ((load_packages { categories := [], defaultCategory := "Other" }
        [{ name := some "pkg2", active := some "   ", others := [] }])[0]?).map
      (fun r => r.status) = some "Activated" := by
  constructor
  · exact ((c10_load_status_default
      { categories := [], defaultCategory := "Other" }
      [{ name := some "pkg", active := some "  UserDisabled  ", others := [] }]
      0 { name := some "pkg", active := some "  UserDisabled  ", others := [] }
      (by simp)).2.2 "  UserDisabled  " rfl (by decide)).trans (by decide)
  · exact ((c10_load_status_default
      { categories := [], defaultCategory := "Other" }
      [{ name := some "pkg2", active := some "   ", others := [] }]
      0 { name := some "pkg2", active := some "   ", others := [] }
      (by simp)).2.1 "   " rfl (by decide)).trans (by decide)

/-- C2, counterexample: the claim says a load-then-save with no
status changes leaves every element's `active` attribute
byte-identical; but save writes back the loaded status, which is the
trimmed attribute value, so an element whose `active` is
`" Activated"` (leading blank) comes back as `"Activated"` — the
attribute changed bytes. -/
theorem c2_counterexample :
    (save_packages
        [{ name := some "a", active := some " Activated", others := [] }]
        (load_packages { categories := [], defaultCategory := "Other" }
          [{ name := some "a", active := some " Activated", others := [] }])
        false true).2
      = [{ name := some "a", active := some "Activated", others := [] }]
  ∧ (save_packages
        [{ name := some "a", active := some " Activated", others := [] }]
        (load_packages { categories := [], defaultCategory := "Other" }
          [{ name := some "a", active := some " Activated", others := [] }])
        false true).2
      ≠ [{ name := some "a", active := some " Activated", others := [] }] := by
  refine ⟨by rfl, by decide⟩

/-- C2, amended: a load-then-save with no status changes and pruning
disabled leaves the manifest identical provided every element's
`active` attribute is present, non-empty and already stripped and the
elements' stripped names are pairwise distinct (otherwise save
normalizes the attribute, as the counterexample shows); moreover,
unconditionally, the status-patch pass never touches the `name`
attribute or the other attributes of any element, and an element
whose stripped name is not among the row names is left entirely
untouched. -/
theorem c2_noop_save_frame :
    (∀ (rules : Rules) (doc : List Package),
        (∀ el ∈ doc, ∃ s, el.active = some s ∧ pyStrip s = s ∧ s ≠ "") →
        (doc.map (fun el => pyStrip (el.name.getD ""))).Nodup →
        save_packages doc (load_packages rules doc) false true = (.ok 0, doc))
  ∧ (∀ (all_rows : List PackageRow) (doc : List Package) (i : Nat),
        ((applyStatuses all_rows doc)[i]?).map (fun el => (el.name, el.others)) =
          (doc[i]?).map (fun el => (el.name, el.others)))
  ∧ (∀ (all_rows : List PackageRow) (doc : List Package) (i : Nat) (el : Package),
        doc[i]? = some el →
        (∀ r ∈ all_rows, r.name ≠ pyStrip (el.name.getD "")) →
        (applyStatuses all_rows doc)[i]? = some el) := by
  refine ⟨?_, ?_, ?_⟩
  · intro rules doc hact hnodup
    have happ : applyStatuses (load_packages rules doc) doc = doc := by
      unfold applyStatuses
      apply map_eq_self_of
      intro el hel
      obtain ⟨s, hs, hstrip, hsne⟩ := hact el hel
      have hsm := statusMap_loaded rules doc hnodup hel
      have hload : loadStatusOfAttr el.active = s := by
        rw [hs]
        unfold loadStatusOfAttr
        simp [hstrip, hsne]
      simp only [hsm, hload]
      rw [← hs]
    unfold save_packages
    simp [happ]
  · intro all_rows doc i
    unfold applyStatuses
    rw [List.getElem?_map]
    cases hdoc : doc[i]? with
    | none => rfl
    | some el =>
      cases hsm : statusMap all_rows (pyStrip (el.name.getD "")) with
      | none => simp [hsm]
      | some st => simp [hsm]
  · intro all_rows doc i el hi hnames
    have hfind :
        all_rows.reverse.find? (fun r => r.name == pyStrip (el.name.getD "")) = none :=
      List.find?_eq_none.mpr
        (fun x hx hbeq => hnames x (List.mem_reverse.mp hx) (by simpa using hbeq))
    have hsm : statusMap all_rows (pyStrip (el.name.getD "")) = none := by
      unfold statusMap
      rw [hfind]
      rfl
    unfold applyStatuses
    rw [List.getElem?_map, hi]
    simp [hsm]

/-- C2 witness: the no-op clause applied to a one-element manifest in
normalized form (with an extra untouched attribute), and the
untouched clause applied to an element whose name is not among the
rows. -/
theorem c2_witness :
    save_packages [{ name := some "a", active := some "UserDisabled", others := [("x", "1")] }]
      (load_packages { categories := [], defaultCategory := "Other" }
        [{ name := some "a", active := some "UserDisabled", others := [("x", "1")] }])
      false true
    = (.ok 0, [{ name := some "a", active := some "UserDisabled", others := [("x", "1")] }])
  ∧ (applyStatuses [{ name := "b", status := "Activated", raw_index := 0 }]
      [{ name := some "a", active := some "Activated", others := [] }])[0]?
    = some { name := some "a", active := some "Activated", others := [] } := by
  constructor
  · exact c2_noop_save_frame.1 { categories := [], defaultCategory := "Other" }
      [{ name := some "a", active := some "UserDisabled", others := [("x", "1")] }]
      (by
        intro el hel
        rw [List.mem_singleton] at hel
        subst hel
        exact ⟨"UserDisabled", rfl, by decide, by decide⟩)
      (by decide)
  · exact c2_noop_save_frame.2.2
      [{ name := "b", status := "Activated", raw_index := 0 }]
      [{ name := some "a", active := some "Activated", others := [] }]
      0 { name := some "a", active := some "Activated", others := [] }
      (by simp)
      (by
        intro r hr
        rw [List.mem_singleton] at hr
        subst hr
        decide)

/-- C4: a SystemDisabled record is immutable through both mutation
paths — `setData` leaves the row list unchanged and reports `False`
whenever the addressed row is SystemDisabled (whatever column, role
and value), and `bulk_set` leaves every SystemDisabled row of the
collection exactly as it was, whatever the selection and target
status. -/
theorem c4_system_disabled_immutable :
    (∀ (rows : List PackageRow) (r c : Nat) (value : CheckState)
        (role : ItemRole) (row : PackageRow),
        rows[r]? = some row → row.status = STATUS_SYSTEMDISABLED →
        setData rows r c value role = (rows, false))
  ∧ (∀ (rows : List PackageRow) (sel : List Nat) (status_value : String)
        (i : Nat) (row : PackageRow),
        rows[i]? = some row → row.status = STATUS_SYSTEMDISABLED →
        ((bulk_set rows sel status_value).1)[i]? = some row) := by
  constructor
  · intro rows r c value role row hi hSD
    have hlt : r < rows.length := by
      by_contra h
      rw [List.getElem?_eq_none (by omega)] at hi
      cases hi
    have hrr : rows[r] = row := by
      rw [List.getElem?_eq_getElem hlt] at hi
      exact Option.some_inj.mp hi
    simp only [setData]
    rw [dif_pos hlt]
    by_cases hcr : c = STATUS_COL ∧ role = ItemRole.CheckStateRole
    · rw [if_pos hcr, if_pos (by rw [hrr]; exact hSD)]
    · rw [if_neg hcr]
  · intro rows sel status_value i row hi hSD
    unfold bulk_set
    exact foldl_bulkStep_preserves_SD status_value sel (rows, 0) hi hSD

/-- C4 witness: a one-row collection holding a SystemDisabled record
rejects a check-state edit unchanged, and survives a bulk activate of
its row untouched. -/
theorem c4_witness :
    setData [{ name := "a", status := "SystemDisabled", raw_index := 0 }] 0 2
      CheckState.Checked ItemRole.CheckStateRole
    = ([{ name := "a", status := "SystemDisabled", raw_index := 0 }], false)
  ∧ ((bulk_set [{ name := "a", status := "SystemDisabled", raw_index := 0 }] [0]
      STATUS_ACTIVATED).1)[0]?
    = some { name := "a", status := "SystemDisabled", raw_index := 0 } := by
  constructor
  · exact c4_system_disabled_immutable.1
      [{ name := "a", status := "SystemDisabled", raw_index := 0 }] 0 2
      CheckState.Checked ItemRole.CheckStateRole
      { name := "a", status := "SystemDisabled", raw_index := 0 } (by simp) rfl
  · exact c4_system_disabled_immutable.2
      [{ name := "a", status := "SystemDisabled", raw_index := 0 }] [0]
      STATUS_ACTIVATED 0
      { name := "a", status := "SystemDisabled", raw_index := 0 } (by simp) rfl

/-- C8, counterexample: the claim says `bulk_set` reports the count
of records whose status actually changed; but selecting one record
already holding the target status yields a reported count of 1 while
the collection is unchanged (zero records actually changed). -/
theorem c8_counterexample :
    bulk_set [{ name := "a", status := "Activated", raw_index := 0 }] [0]
      STATUS_ACTIVATED
    = ([{ name := "a", status := "Activated", raw_index := 0 }], 1) := by decide

/-- C8, amended: `bulk_set` applies the single-record check-state
update to each selected record and silently skips SystemDisabled
ones, but the count it reports is the number of selected (in-range)
records that are not SystemDisabled — records already holding the
target status are counted even though their status does not change. -/
theorem c8_amended_bulk_count (rows : List PackageRow) (sel : List Nat)
    (status_value : String) :
    (bulk_set rows sel status_value).2 = sel.countP (notSysDisabledAt rows) := by
  unfold bulk_set
  rw [foldl_bulkStep_count status_value rows sel (rows, 0) (fun j => rfl)]
  simp

end ContentWrangler
